import Mathlib

set_option maxRecDepth 100000

/-!
Verification of the PULSE social-media pipeline against its specification.

This file gives a shallow embedding, in Lean 4, of the parts of the PULSE
code base that the verified properties talk about:

* the tweet-truncation step of the pipeline orchestration task
  (`worker/tasks.py`, `fetch_and_post`);
* the deduplication service (`worker/utils/deduplication.py`), together with a
  full executable SHA-256, since content hashes are SHA-256 hex digests;
* the X posting clients and their in-process sliding-window rate limiter
  (`worker/adapters/x_poster.py`);
* the deterministic mock LLM summarizer (`worker/adapters/llm_adapter.py`),
  together with a full executable MD5, since the template index is derived
  from the MD5 hex digest of the title;
* article ranking (`worker/utils/content_ranker.py`);
* the system-health computation of `GET /status/`
  (`backend/app/api/status.py`);
* the security module's cache-backed rate limiter (`backend/security.py`);
* the A/B testing engine (`worker/utils/ab_testing.py`);
* fact extraction/verification of the advanced summarizer
  (`worker/utils/advanced_summarizer.py`).

Python strings are modelled as `List Char`; machine 32-bit words are `Nat`
taken modulo `2 ^ 32`; Python floats are modelled as exact rationals `ℚ`;
code that can raise returns `Option`/`Except`.  Randomness and wall-clock
time are passed in explicitly as parameters.
-/

deriving instance DecidableEq for Except

/-! ## Generic string helpers (Python semantics) -/

/-- Python slicing `s[:n]` for an `Int` index `n`: a negative `n` counts from
the end of the string (`s[:-k]` drops the last `k` characters, clamped at the
empty string). -/
def pyTake (s : List Char) (n : Int) : List Char :=
  if 0 ≤ n then s.take n.toNat else s.take (s.length - (-n).toNat)

/-- Python `str.strip()`: remove whitespace from both ends. -/
def pyStrip (s : List Char) : List Char :=
  (((s.dropWhile Char.isWhitespace).reverse).dropWhile Char.isWhitespace).reverse

/-- Python `str.lower()` (restricted to the character-wise lowering Lean
provides; all strings the code compares against are ASCII). -/
def pyLower (s : List Char) : List Char := s.map Char.toLower

/-- Fuel-driven worker for `pyReplace`; fuel `s.length` always suffices since
every step consumes at least one character of the remaining input. -/
def pyReplaceAux (pat rep : List Char) : Nat → List Char → List Char
  | 0, s => s
  | _ + 1, [] => []
  | fuel + 1, c :: rest =>
    if pat ≠ [] ∧ pat.isPrefixOf (c :: rest) then
      rep ++ pyReplaceAux pat rep fuel ((c :: rest).drop pat.length)
    else
      c :: pyReplaceAux pat rep fuel rest

/-- Python `str.replace(pat, rep)` for a non-empty pattern `pat`: replace all
non-overlapping occurrences, scanning left to right. -/
def pyReplace (pat rep s : List Char) : List Char := pyReplaceAux pat rep s.length s

/-- Python's substring test `pat in text`: `pat` occurs contiguously in
`text` (always true for the empty pattern). -/
def isSubstrOf (pat : List Char) : List Char → Bool
  | [] => pat.isEmpty
  | c :: rest => pat.isPrefixOf (c :: rest) || isSubstrOf pat rest

/-! ## Bytes, 32-bit words, hex digests -/

/-- UTF-8 encoding of one character, as a list of byte values. -/
def utf8EncodeChar (c : Char) : List Nat :=
  let n := c.toNat
  if n < 128 then [n]
  else if n < 2048 then [192 + n / 64, 128 + n % 64]
  else if n < 65536 then [224 + n / 4096, 128 + n / 64 % 64, 128 + n % 64]
  else [240 + n / 262144, 128 + n / 4096 % 64, 128 + n / 64 % 64, 128 + n % 64]

/-- UTF-8 encoding of a string (Python `str.encode()`), as byte values. -/
def utf8Bytes (s : List Char) : List Nat := (s.map utf8EncodeChar).flatten

/-- Truncate to a 32-bit word. -/
def w32 (n : Nat) : Nat := n % 4294967296

/-- 32-bit bitwise complement. -/
def not32 (x : Nat) : Nat := 4294967295 - w32 x

/-- 32-bit rotate left. -/
def rotl32 (x s : Nat) : Nat := w32 (w32 x * 2 ^ s) + w32 x / 2 ^ (32 - s)

/-- 32-bit rotate right. -/
def rotr32 (x s : Nat) : Nat := w32 x / 2 ^ s + w32 x % 2 ^ s * 2 ^ (32 - s)

/-- `count` little-endian bytes of `n`. -/
def leBytes : Nat → Nat → List Nat
  | _, 0 => []
  | n, k + 1 => n % 256 :: leBytes (n / 256) k

/-- `count` big-endian bytes of `n`. -/
def beBytes (n count : Nat) : List Nat := (leBytes n count).reverse

/-- A hex digit character (lowercase). -/
def hexDigit (n : Nat) : Char :=
  if n < 10 then Char.ofNat (48 + n) else Char.ofNat (87 + n)

/-- Lowercase hex rendering of a list of byte values. -/
def bytesToHex (bs : List Nat) : List Char :=
  (bs.map (fun b => [hexDigit (b / 16 % 16), hexDigit (b % 16)])).flatten

/-- Numeric value of one (lowercase) hex digit character. -/
def hexVal (c : Char) : Nat := if c.toNat < 58 then c.toNat - 48 else c.toNat - 87

/-- Python `int(s, 16)` for a lowercase hex string. -/
def parseHex (s : List Char) : Nat := s.foldl (fun acc c => 16 * acc + hexVal c) 0

/-- Fuel-driven worker for `chunks64`; fuel `l.length` always suffices. -/
def chunks64Aux : Nat → List Nat → List (List Nat)
  | 0, _ => []
  | _ + 1, [] => []
  | fuel + 1, b :: bs => ((b :: bs).take 64) :: chunks64Aux fuel ((b :: bs).drop 64)

/-- Split a byte string into 64-byte chunks. -/
def chunks64 (l : List Nat) : List (List Nat) := chunks64Aux l.length l

/-- Merkle–Damgård padding shared by MD5 and SHA-256: append `0x80`, zero-pad
to 56 mod 64 bytes, then append the 8-byte original bit length (little-endian
for MD5, big-endian for SHA-256). -/
def mdPad (msg : List Nat) (littleEndianLength : Bool) : List Nat :=
  let lenBytes :=
    if littleEndianLength then leBytes (msg.length * 8 % 2 ^ 64) 8
    else beBytes (msg.length * 8 % 2 ^ 64) 8
  msg ++ 128 :: List.replicate ((119 - msg.length % 64) % 64) 0 ++ lenBytes

/-! ## MD5 (RFC 1321) -/

/-- The 64 MD5 round constants `floor(2^32 * |sin(i+1)|)`. -/
def md5K : List Nat := [
  3614090360, 3905402710, 606105819, 3250441966, 4118548399, 1200080426, 2821735955, 4249261313,
  1770035416, 2336552879, 4294925233, 2304563134, 1804603682, 4254626195, 2792965006, 1236535329,
  4129170786, 3225465664, 643717713, 3921069994, 3593408605, 38016083, 3634488961, 3889429448,
  568446438, 3275163606, 4107603335, 1163531501, 2850285829, 4243563512, 1735328473, 2368359562,
  4294588738, 2272392833, 1839030562, 4259657740, 2763975236, 1272893353, 4139469664, 3200236656,
  681279174, 3936430074, 3572445317, 76029189, 3654602809, 3873151461, 530742520, 3299628645,
  4096336452, 1126891415, 2878612391, 4237533241, 1700485571, 2399980690, 4293915773, 2240044497,
  1873313359, 4264355552, 2734768916, 1309151649, 4149444226, 3174756917, 718787259, 3951481745]

/-- The 64 MD5 per-round left-rotation amounts. -/
def md5S : List Nat := [
  7, 12, 17, 22, 7, 12, 17, 22, 7, 12, 17, 22, 7, 12, 17, 22,
  5, 9, 14, 20, 5, 9, 14, 20, 5, 9, 14, 20, 5, 9, 14, 20,
  4, 11, 16, 23, 4, 11, 16, 23, 4, 11, 16, 23, 4, 11, 16, 23,
  6, 10, 15, 21, 6, 10, 15, 21, 6, 10, 15, 21, 6, 10, 15, 21]

/-- One MD5 round on state `(A, B, C, D)` with message-word accessor `M`. -/
def md5Round (M : Nat → Nat) (st : Nat × Nat × Nat × Nat) (i : Nat) :
    Nat × Nat × Nat × Nat :=
  let (A, B, C, D) := st
  let fg : Nat × Nat :=
    if i < 16 then ((B &&& C) ||| (not32 B &&& D), i)
    else if i < 32 then ((D &&& B) ||| (not32 D &&& C), (5 * i + 1) % 16)
    else if i < 48 then (B ^^^ C ^^^ D, (3 * i + 5) % 16)
    else (C ^^^ (B ||| not32 D), 7 * i % 16)
  let F := w32 (fg.1 + A + md5K.getD i 0 + M fg.2)
  (D, w32 (B + rotl32 F (md5S.getD i 0)), B, C)

/-- Process one 64-byte chunk of an MD5 computation. -/
def md5Chunk (st : Nat × Nat × Nat × Nat) (chunk : List Nat) :
    Nat × Nat × Nat × Nat :=
  let M : Nat → Nat := fun j =>
    chunk.getD (4 * j) 0 + 256 * chunk.getD (4 * j + 1) 0 +
      65536 * chunk.getD (4 * j + 2) 0 + 16777216 * chunk.getD (4 * j + 3) 0
  let r := (List.range 64).foldl (md5Round M) st
  (w32 (r.1 + st.1), w32 (r.2.1 + st.2.1), w32 (r.2.2.1 + st.2.2.1),
    w32 (r.2.2.2 + st.2.2.2))

/-- MD5 digest of a byte string, as 16 bytes. -/
def md5Bytes (msg : List Nat) : List Nat :=
  let r := (chunks64 (mdPad msg true)).foldl md5Chunk
    (1732584193, 4023233417, 2562383102, 271733878)
  leBytes r.1 4 ++ leBytes r.2.1 4 ++ leBytes r.2.2.1 4 ++ leBytes r.2.2.2 4

/-- `hashlib.md5(s.encode()).hexdigest()` as a character list. -/
def md5Hex (s : List Char) : List Char := bytesToHex (md5Bytes (utf8Bytes s))

/-! ## SHA-256 (FIPS 180-4) -/

/-- The 64 SHA-256 round constants. -/
def sha256K : List Nat := [
  1116352408, 1899447441, 3049323471, 3921009573, 961987163, 1508970993, 2453635748, 2870763221,
  3624381080, 310598401, 607225278, 1426881987, 1925078388, 2162078206, 2614888103, 3248222580,
  3835390401, 4022224774, 264347078, 604807628, 770255983, 1249150122, 1555081692, 1996064986,
  2554220882, 2821834349, 2952996808, 3210313671, 3336571891, 3584528711, 113926993, 338241895,
  666307205, 773529912, 1294757372, 1396182291, 1695183700, 1986661051, 2177026350, 2456956037,
  2730485921, 2820302411, 3259730800, 3345764771, 3516065817, 3600352804, 4094571909, 275423344,
  430227734, 506948616, 659060556, 883997877, 958139571, 1322822218, 1537002063, 1747873779,
  1955562222, 2024104815, 2227730452, 2361852424, 2428436474, 2756734187, 3204031479, 3329325298]

/-- Extend the 16 message words of a chunk to the 64-word SHA-256 schedule. -/
def sha256Extend (w : List Nat) (t : Nat) : List Nat :=
  match t with
  | 0 => w
  | t + 1 =>
    let w := sha256Extend w t
    let i := w.length
    let s0 := rotr32 (w.getD (i - 15) 0) 7 ^^^ rotr32 (w.getD (i - 15) 0) 18 ^^^
      w.getD (i - 15) 0 / 2 ^ 3
    let s1 := rotr32 (w.getD (i - 2) 0) 17 ^^^ rotr32 (w.getD (i - 2) 0) 19 ^^^
      w.getD (i - 2) 0 / 2 ^ 10
    w ++ [w32 (w.getD (i - 16) 0 + s0 + w.getD (i - 7) 0 + s1)]

/-- One SHA-256 compression round. -/
def sha256Round (w : List Nat) (st : Nat × Nat × Nat × Nat × Nat × Nat × Nat × Nat)
    (t : Nat) : Nat × Nat × Nat × Nat × Nat × Nat × Nat × Nat :=
  let (a, b, c, d, e, f, g, h) := st
  let S1 := rotr32 e 6 ^^^ rotr32 e 11 ^^^ rotr32 e 25
  let ch := (e &&& f) ^^^ (not32 e &&& g)
  let T1 := w32 (h + S1 + ch + sha256K.getD t 0 + w.getD t 0)
  let S0 := rotr32 a 2 ^^^ rotr32 a 13 ^^^ rotr32 a 22
  let maj := (a &&& b) ^^^ (a &&& c) ^^^ (b &&& c)
  let T2 := w32 (S0 + maj)
  (w32 (T1 + T2), a, b, c, w32 (d + T1), e, f, g)

/-- Process one 64-byte chunk of a SHA-256 computation. -/
def sha256Chunk (st : Nat × Nat × Nat × Nat × Nat × Nat × Nat × Nat)
    (chunk : List Nat) : Nat × Nat × Nat × Nat × Nat × Nat × Nat × Nat :=
  let w0 := (List.range 16).map (fun j =>
    16777216 * chunk.getD (4 * j) 0 + 65536 * chunk.getD (4 * j + 1) 0 +
      256 * chunk.getD (4 * j + 2) 0 + chunk.getD (4 * j + 3) 0)
  let w := sha256Extend w0 48
  let r := (List.range 64).foldl (sha256Round w) st
  (w32 (r.1 + st.1), w32 (r.2.1 + st.2.1), w32 (r.2.2.1 + st.2.2.1),
    w32 (r.2.2.2.1 + st.2.2.2.1), w32 (r.2.2.2.2.1 + st.2.2.2.2.1),
    w32 (r.2.2.2.2.2.1 + st.2.2.2.2.2.1), w32 (r.2.2.2.2.2.2.1 + st.2.2.2.2.2.2.1),
    w32 (r.2.2.2.2.2.2.2 + st.2.2.2.2.2.2.2))

/-- SHA-256 digest of a byte string, as 32 bytes. -/
def sha256Bytes (msg : List Nat) : List Nat :=
  let r := (chunks64 (mdPad msg false)).foldl sha256Chunk
    (1779033703, 3144134277, 1013904242, 2773480762, 1359893119, 2600822924,
      528734635, 1541459225)
  beBytes r.1 4 ++ beBytes r.2.1 4 ++ beBytes r.2.2.1 4 ++ beBytes r.2.2.2.1 4 ++
    beBytes r.2.2.2.2.1 4 ++ beBytes r.2.2.2.2.2.1 4 ++ beBytes r.2.2.2.2.2.2.1 4 ++
    beBytes r.2.2.2.2.2.2.2 4

/-- `hashlib.sha256(s.encode()).hexdigest()` as a character list. -/
def sha256Hex (s : List Char) : List Char := bytesToHex (sha256Bytes (utf8Bytes s))

/-- MD5 test vector: the digest of `"a"` (RFC 1321 test suite). -/
theorem md5Hex_a : md5Hex "a".data = "0cc175b9c0f1b6a831c399e269772661".data := by
  decide

/-- MD5 test vector: the digest of the empty string. -/
theorem md5Hex_empty : md5Hex "".data = "d41d8cd98f00b204e9800998ecf8427e".data := by
  decide

/-- SHA-256 test vector: the digest of `"abc"` (FIPS 180-4 example). -/
theorem sha256Hex_abc :
    sha256Hex "abc".data =
      "ba7816bf8f01cfea414140de5dae2223b00361a396177a9cb410ff61f20015ad".data := by
  decide

/-- SHA-256 test vector: the digest of the empty string. -/
theorem sha256Hex_empty :
    sha256Hex "".data =
      "e3b0c44298fc1c149afbf4c8996fb92427ae41e4649b934ca495991b7852b855".data := by
  decide

/-! ## Tweet truncation (`worker/tasks.py`, `fetch_and_post`, step 5e) -/

/-- The source line `f"\n\nSource: {url}"` appended to every post. -/
def sourceLine (url : List Char) : List Char := "\n\nSource: ".data ++ url

/-- The truncation step of `fetch_and_post`:

    if len(post_content) > 280:
        available_chars = 280 - len(f"\n\nSource: {article.url}") - 3  # 3 for "..."
        truncated_summary = post_content[:available_chars] + "..."
        post_content = f"{truncated_summary}\n\nSource: {article.url}"
-/
def truncatePost (post_content url : List Char) : List Char :=
  if 280 < post_content.length then
    let available_chars : Int := 280 - ((sourceLine url).length : Int) - 3
    let truncated_summary := pyTake post_content available_chars ++ "...".data
    truncated_summary ++ sourceLine url
  else post_content

theorem sourceLine_length (url : List Char) : (sourceLine url).length = 10 + url.length := by
  simp [sourceLine]; omega

theorem truncatePost_of_long (text url : List Char) (h : 280 < text.length) :
    truncatePost text url =
      (pyTake text (280 - ((sourceLine url).length : Int) - 3) ++ "...".data) ++
        sourceLine url := by
  simp [truncatePost, h]

/-- **C1** (corrected).  The orchestration task's 280-character truncation step,
for any URL of length at most 267 (equivalently, whenever
`280 - len("\n\nSource: {url}") - 3` is non-negative): the result is at most
280 characters long, a truncated post ends with `"Source: {url}"` verbatim,
and a post of at most 280 characters is returned unchanged.  The claim as
stated fails for longer URLs (see `c1_counterexample`): the slice index
`available_chars` becomes negative and Python's negative slicing keeps almost
the whole text, so the result exceeds 280 characters. -/
theorem c1_amended_theorem (text url : List Char) (h : url.length ≤ 267) :
    (truncatePost text url).length ≤ 280 ∧
    (280 < text.length → ("Source: ".data ++ url).IsSuffix (truncatePost text url)) ∧
    (text.length ≤ 280 → truncatePost text url = text) := by
  by_cases hlen : 280 < text.length
  · have havail : (0 : Int) ≤ 280 - ((sourceLine url).length : Int) - 3 := by
      rw [sourceLine_length]; push_cast; omega
    have htake : pyTake text (280 - ((sourceLine url).length : Int) - 3) =
        text.take (267 - url.length) := by
      rw [pyTake, if_pos havail]
      congr 1
      rw [sourceLine_length]; push_cast; omega
    have hres := truncatePost_of_long text url hlen
    rw [htake] at hres
    refine ⟨?_, fun _ => ?_, fun hc => absurd hlen (by omega)⟩
    · rw [hres]
      simp only [List.length_append, List.length_take, sourceLine_length]
      have h3 : ("...".data).length = 3 := rfl
      rw [h3]
      omega
    · rw [hres]
      have hsplit : sourceLine url = "\n\n".data ++ ("Source: ".data ++ url) := by
        simp [sourceLine]
      rw [hsplit, ← List.append_assoc]
      exact List.suffix_append _ _
  · push_neg at hlen
    have hres : truncatePost text url = text := by
      simp [truncatePost]; omega
    exact ⟨by rw [hres]; omega, fun hc => absurd hc (by omega), fun _ => hres⟩

/-- A 281-character post text, for the C1 counterexample. -/
def c1ExText : List Char := List.replicate 281 'a'

/-- A 268-character URL, for the C1 counterexample. -/
def c1ExUrl : List Char := List.replicate 268 'b'

/-- **C1 counterexample.**  With a 281-character post text and a 268-character
URL, `available_chars = 280 - 278 - 3 = -1`, so `post_content[:available_chars]`
keeps 280 of the 281 characters and the final post is 561 characters long —
the claimed 280-character bound fails. -/
theorem c1_counterexample :
    280 < c1ExText.length ∧ (truncatePost c1ExText c1ExUrl).length = 561 := by
  decide

/-- A 281-character post text, for the C1 witness. -/
def c1WitText : List Char := List.replicate 281 'c'

/-- A 1-character URL, for the C1 witness. -/
def c1WitUrl : List Char := "u".data

/-- Witness instantiating `c1_amended_theorem` at a concrete input. -/
theorem c1_witness :
    c1WitUrl.length ≤ 267 ∧
    ((truncatePost c1WitText c1WitUrl).length ≤ 280 ∧
     (280 < c1WitText.length →
       ("Source: ".data ++ c1WitUrl).IsSuffix (truncatePost c1WitText c1WitUrl)) ∧
     (c1WitText.length ≤ 280 → truncatePost c1WitText c1WitUrl = c1WitText)) :=
  ⟨by decide, c1_amended_theorem c1WitText c1WitUrl (by decide)⟩

/-! ## Deduplication service (`worker/utils/deduplication.py`) -/

/-- The columns of an `Article` row that deduplication inspects. -/
structure ArticleRow where
  url : String
  content_hash : String
deriving DecidableEq

/-- An incoming article dictionary: `get("url")` may be absent (`none`), and
`get("title", "")` / `get("description", "")` default to the empty string. -/
structure ArticleData where
  url : Option String
  title : String
  description : String
deriving DecidableEq

/-- `DeduplicationService.generate_content_hash`: SHA-256 hex digest of
`title + description`. -/
def generate_content_hash (a : ArticleData) : String :=
  String.mk (sha256Hex (a.title ++ a.description).data)

/-- `DeduplicationService.is_duplicate` against the stored `Article` rows.
Python's `if url:` is truthiness: the URL query only runs when the incoming
url is present and non-empty. -/
def is_duplicate (db : List ArticleRow) (a : ArticleData) : Bool :=
  let content_hash := generate_content_hash a
  let urlMatch : Bool :=
    match a.url with
    | some u => (u != "") && db.any (fun r => r.url == u)
    | none => false
  if urlMatch then true
  else db.any (fun r => r.content_hash == content_hash)

theorem is_duplicate_eq (db : List ArticleRow) (a : ArticleData) :
    is_duplicate db a =
      ((match a.url with
        | some u => (u != "") && db.any (fun r => r.url == u)
        | none => false) ||
        db.any (fun r => r.content_hash == generate_content_hash a)) := by
  unfold is_duplicate
  cases a.url with
  | none => simp
  | some u => cases h : ((u != "") && db.any (fun r => r.url == u)) <;> simp [h]

/-- **C2** (corrected).  `is_duplicate` returns true exactly when some stored
row has the same *non-empty* url as the article, or some stored row has the
same content hash as the SHA-256 digest of title+description.  The claim as
stated omits the non-emptiness condition: Python's `if url:` skips the URL
check for an empty-string url, so a stored row whose url equals the article's
empty-string url is not reported (see `c2_counterexample`). -/
theorem c2_amended_theorem (db : List ArticleRow) (a : ArticleData) :
    is_duplicate db a = true ↔
      ((∃ u, a.url = some u ∧ u ≠ "" ∧ ∃ r ∈ db, r.url = u) ∨
        ∃ r ∈ db, r.content_hash = generate_content_hash a) := by
  rw [is_duplicate_eq]
  cases hu : a.url with
  | none => simp [List.any_eq_true, beq_iff_eq]
  | some u =>
    simp only [Bool.or_eq_true, Bool.and_eq_true, bne_iff_ne, ne_eq,
      List.any_eq_true, beq_iff_eq, Option.some.injEq]
    constructor
    · rintro (⟨hne, r, hr, hru⟩ | h)
      · exact Or.inl ⟨u, rfl, hne, r, hr, hru⟩
      · exact Or.inr h
    · rintro (⟨u', hu', hne, r, hr, hru⟩ | h)
      · cases hu'
        exact Or.inl ⟨hne, r, hr, hru⟩
      · exact Or.inr h

/-- The stored rows for the C2 counterexample: one row with an empty url. -/
def c2ExDb : List ArticleRow := [⟨"", "x"⟩]

/-- The incoming article for the C2 counterexample: its url is the empty
string, which matches the stored row's url. -/
def c2ExArticle : ArticleData := ⟨some "", "anything", ""⟩

/-- **C2 counterexample.**  A stored row and an incoming article share the url
`""`, and the stored content hash differs from the article's content hash, yet
`is_duplicate` reports `false`: Python's `if url:` treats the empty url as
absent, so the claimed URL check never runs. -/
theorem c2_counterexample :
    (∃ r ∈ c2ExDb, c2ExArticle.url = some r.url) ∧
      is_duplicate c2ExDb c2ExArticle = false := by
  refine ⟨⟨⟨"", "x"⟩, by decide, by decide⟩, by decide⟩

/-! ## X posting adapter (`worker/adapters/x_poster.py`)

The in-process sliding-window rate limiter keeps a list of request times;
wall-clock time is passed in explicitly (`now`, in seconds, as `Int`).  The
network is an oracle `net : Nat → NetOutcome` giving the outcome of the
`attempt`-th HTTP request; each `post_tweet` call returns its result together
with the number of HTTP requests it issued. -/

/-- `RateLimiter` of `x_poster.py` (timestamp-list sliding window). -/
structure XRateLimiter where
  max_requests : Nat
  time_window : Int
  requests : List Int

/-- `RateLimiter.can_make_request`: prune entries older than the window,
compare the remaining count to the maximum. -/
def XRateLimiter.can_make_request (rl : XRateLimiter) (now : Int) : Bool :=
  decide ((rl.requests.filter (fun t => decide (now - t < rl.time_window))).length
    < rl.max_requests)

/-- `RateLimiter.wait_time`: window length minus the age of the oldest
retained timestamp (0 if a request could be made now, or no requests). -/
def XRateLimiter.wait_time (rl : XRateLimiter) (now : Int) : Int :=
  if rl.can_make_request now then 0
  else
    match rl.requests.min? with
    | some oldest => rl.time_window - (now - oldest)
    | none => 0

/-- Outcome of one HTTP request to the X API. -/
inductive NetOutcome where
  | status (code : Nat) (tweetId : Option String) (retryAfterHeader : Option Int)
      (detail : Option String)
  | timeout
  | requestError (msg : String)
deriving DecidableEq

/-- The structured result dictionary returned by `post_tweet`. -/
structure TweetResult where
  success : Bool
  error : Option String := none
  post_id : Option String := none
  retry_after : Option Int := none
deriving DecidableEq

/-- The error message for over-long tweets:
`f"Tweet too long: {len(text)} characters (max 280)"`. -/
def tweetTooLongError (n : Nat) : String :=
  "Tweet too long: " ++ toString n ++ " characters (max 280)"

/-- The error message for a locally exhausted rate limiter:
`f"Rate limit exceeded. Wait {wait_time:.0f} seconds."`. -/
def rateLimitError (w : Int) : String :=
  "Rate limit exceeded. Wait " ++ toString w ++ " seconds."

/-- The `for attempt in range(retry_count)` retry loop of
`XAPIClient.post_tweet`, returning the result and the number of HTTP requests
issued.  Fuel starts at `retry_count`, so fuel 0 is the loop falling through
to `"All retry attempts failed"`. -/
def xTweetAttempts (net : Nat → NetOutcome) (retry_count : Nat) :
    Nat → Nat → TweetResult × Nat
  | attempt, 0 => ({ success := false, error := some "All retry attempts failed" }, attempt)
  | attempt, fuel + 1 =>
    match net attempt with
    | .status 201 tid _ _ => ({ success := true, post_id := tid }, attempt + 1)
    | .status 429 _ ra _ =>
      if attempt < retry_count - 1 then xTweetAttempts net retry_count (attempt + 1) fuel
      else ({ success := false, error := some "Rate limited by X API",
              retry_after := some (ra.getD 900) }, attempt + 1)
    | .status 403 _ _ detail =>
      ({ success := false,
         error := some ("Forbidden: " ++ detail.getD "Forbidden by X API") }, attempt + 1)
    | .status code _ _ detail =>
      if attempt < retry_count - 1 then xTweetAttempts net retry_count (attempt + 1) fuel
      else ({ success := false,
              error := some ("X API error: " ++ toString code ++ " - " ++
                detail.getD "Unknown error") }, attempt + 1)
    | .timeout =>
      if attempt < retry_count - 1 then xTweetAttempts net retry_count (attempt + 1) fuel
      else ({ success := false, error := some "Request timeout" }, attempt + 1)
    | .requestError m =>
      if attempt < retry_count - 1 then xTweetAttempts net retry_count (attempt + 1) fuel
      else ({ success := false, error := some ("Request failed: " ++ m) }, attempt + 1)

/-- `XAPIClient.post_tweet`: raises (`Except.error`) without credentials, then
checks the local rate limiter, then validates the 280-character limit, and
only then enters the network retry loop.  The second component counts HTTP
requests issued. -/
def XAPIClient.post_tweet (bearer_token : Option String) (rl : XRateLimiter)
    (now : Int) (text : List Char) (net : Nat → NetOutcome) (retry_count : Nat) :
    Except String (TweetResult × Nat) :=
  if bearer_token.isNone then .error "X API credentials not available"
  else if ¬ rl.can_make_request now then
    .ok ({ success := false, error := some (rateLimitError (rl.wait_time now)),
           retry_after := some (rl.wait_time now) }, 0)
  else if 280 < text.length then
    .ok ({ success := false, error := some (tweetTooLongError text.length) }, 0)
  else .ok (xTweetAttempts net retry_count 0 retry_count)

/-- `MockXAPIClient.post_tweet`: same rate-limit and length checks, no network;
`posted_count` is `len(self.posted_tweets)`. -/
def MockXAPIClient.post_tweet (rl : XRateLimiter) (now : Int) (posted_count : Nat)
    (text : List Char) : TweetResult :=
  if ¬ rl.can_make_request now then
    { success := false, error := some (rateLimitError (rl.wait_time now)),
      retry_after := some (rl.wait_time now) }
  else if 280 < text.length then
    { success := false, error := some (tweetTooLongError text.length) }
  else
    { success := true,
      post_id := some ("mock_tweet_" ++ toString now ++ "_" ++ toString posted_count) }

/-- **C3** (corrected).  Provided the client's in-process rate limiter has
capacity at the time of the call (and, for the real client, credentials are
present), posting a text longer than 280 characters returns a structured
failure: `success = false`, the error names the length, zero HTTP requests
are issued, and no retry happens.  The claim as stated fails without the
rate-limiter proviso: the rate-limit check precedes the length check, so in
an exhausted-limiter state the failure message names the wait time, not the
length (see `c3_counterexample`); the no-network/no-retry part still holds
there. -/
theorem c3_amended_theorem (tok : String) (rl rlm : XRateLimiter) (now nowm : Int)
    (text : List Char) (net : Nat → NetOutcome) (rc pc : Nat)
    (h1 : rl.can_make_request now = true) (h2 : rlm.can_make_request nowm = true)
    (hlen : 280 < text.length) :
    XAPIClient.post_tweet (some tok) rl now text net rc =
      .ok ({ success := false, error := some (tweetTooLongError text.length) }, 0) ∧
    MockXAPIClient.post_tweet rlm nowm pc text =
      { success := false, error := some (tweetTooLongError text.length) } := by
  constructor
  · simp [XAPIClient.post_tweet, h1, hlen]
  · simp [MockXAPIClient.post_tweet, h2, hlen]

/-- A limiter that has already recorded its full budget of 50 requests inside
the current window. -/
def c3ExLimiter : XRateLimiter := ⟨50, 3600, List.replicate 50 0⟩

/-- A 281-character tweet text. -/
def c3ExText : List Char := List.replicate 281 'x'

/-- **C3 counterexample.**  With the 50-per-hour limiter exhausted, posting a
281-character text returns the rate-limit failure — an error that does not
name the text length — even though the text exceeds 280 characters, so the
claim's unconditional "error naming the length" is false.  (No HTTP request
is issued on this path either: the request count is 0.) -/
theorem c3_counterexample :
    280 < c3ExText.length ∧
    XAPIClient.post_tweet (some "token") c3ExLimiter 0 c3ExText (fun _ => .timeout) 3 =
      .ok ({ success := false, error := some "Rate limit exceeded. Wait 3600 seconds.",
             retry_after := some 3600 }, 0) ∧
    "Rate limit exceeded. Wait 3600 seconds." ≠ tweetTooLongError c3ExText.length := by
  refine ⟨by decide, by rfl, by decide⟩

/-- A fresh (empty) 50-per-hour limiter. -/
def c3WitLimiter : XRateLimiter := ⟨50, 3600, []⟩

/-- A 281-character tweet text for the witness. -/
def c3WitText : List Char := List.replicate 281 'w'

/-- Witness instantiating `c3_amended_theorem` at a concrete input. -/
theorem c3_witness :
    c3WitLimiter.can_make_request 0 = true ∧ 280 < c3WitText.length ∧
    (XAPIClient.post_tweet (some "t") c3WitLimiter 0 c3WitText (fun _ => .timeout) 3 =
      .ok ({ success := false, error := some (tweetTooLongError c3WitText.length) }, 0) ∧
     MockXAPIClient.post_tweet c3WitLimiter 0 0 c3WitText =
      { success := false, error := some (tweetTooLongError c3WitText.length) }) :=
  ⟨by decide, by decide,
    c3_amended_theorem "t" c3WitLimiter c3WitLimiter 0 0 c3WitText (fun _ => .timeout) 3 0
      (by decide) (by decide) (by decide)⟩

/-! ## Mock LLM adapter (`worker/adapters/llm_adapter.py`, `MockLLMAdapter`) -/

/-- The five canned summary templates of `MockLLMAdapter.__init__`. -/
def mock_summaries : List (List Char) := [
  "Breaking: New AI breakthrough promises to revolutionize industry efficiency and automation.".data,
  "Tech giant announces major update with enhanced security features and improved user experience.".data,
  "Researchers discover innovative solution that could transform renewable energy sector.".data,
  "Market analysis reveals significant growth trends in emerging technology sectors.".data,
  "Expert analysis shows promising developments in sustainable technology adoption.".data]

/-- `summary_index = int(hashlib.md5(title.encode()).hexdigest()[:2], 16) % 5`. -/
def mockSummaryIndex (title : List Char) : Nat :=
  parseHex ((md5Hex title).take 2) % 5

/-- The tone post-processing of `MockLLMAdapter.summarize_article`: casual
chains `replace("Breaking:", "Check this out:")` then
`replace("announces", "just announced")`; creative wraps with emoji bookends;
any other tone (including professional) leaves the template unchanged. -/
def mockToneAdjust (tone : String) (summary : List Char) : List Char :=
  if tone = "casual" then
    pyReplace "announces".data "just announced".data
      (pyReplace "Breaking:".data "Check this out:".data summary)
  else if tone = "creative" then "🚀 ".data ++ summary ++ " 🔥".data
  else summary

/-- `MockLLMAdapter.summarize_article` (the content argument is ignored by the
source; the simulated 0.5 s latency is not modelled). -/
def MockLLMAdapter.summarize_article (title : List Char) (_content : List Char)
    (tone : String) : List Char :=
  mockToneAdjust tone (mock_summaries.getD (mockSummaryIndex title) [])

theorem mock_template_cases : ∀ i : Fin 5,
    mockToneAdjust "creative" (mock_summaries.getD i.val []) ≠
      mockToneAdjust "professional" (mock_summaries.getD i.val []) ∧
    mockToneAdjust "creative" (mock_summaries.getD i.val []) ≠
      mockToneAdjust "casual" (mock_summaries.getD i.val []) ∧
    (i.val ≤ 1 → mockToneAdjust "casual" (mock_summaries.getD i.val []) ≠
      mockToneAdjust "professional" (mock_summaries.getD i.val [])) ∧
    (2 ≤ i.val → mockToneAdjust "casual" (mock_summaries.getD i.val []) =
      mockToneAdjust "professional" (mock_summaries.getD i.val [])) := by
  decide

/-- **C4** (corrected).  The mock summarizer is deterministic (it is a pure
function of title and tone), and the creative output always differs from both
the professional and the casual output; but the casual and professional
outputs coincide whenever the title's template index
`int(md5(title)[:2], 16) % 5` is 2, 3 or 4, because only templates 0 and 1
contain `"Breaking:"` or `"announces"`.  The three tones give pairwise
distinct outputs exactly for template indices 0 and 1, so the claim's
unconditional pairwise distinctness fails (see `c4_counterexample`). -/
theorem c4_amended_theorem (title content : List Char) :
    (∀ tone : String, MockLLMAdapter.summarize_article title content tone =
      MockLLMAdapter.summarize_article title content tone) ∧
    MockLLMAdapter.summarize_article title content "creative" ≠
      MockLLMAdapter.summarize_article title content "professional" ∧
    MockLLMAdapter.summarize_article title content "creative" ≠
      MockLLMAdapter.summarize_article title content "casual" ∧
    (mockSummaryIndex title ≤ 1 →
      MockLLMAdapter.summarize_article title content "casual" ≠
        MockLLMAdapter.summarize_article title content "professional") ∧
    (2 ≤ mockSummaryIndex title →
      MockLLMAdapter.summarize_article title content "casual" =
        MockLLMAdapter.summarize_article title content "professional") := by
  have h5 : mockSummaryIndex title < 5 := by
    unfold mockSummaryIndex
    exact Nat.mod_lt _ (by norm_num)
  have h := mock_template_cases ⟨mockSummaryIndex title, h5⟩
  simp only [MockLLMAdapter.summarize_article]
  exact ⟨fun _ => trivial, h.1, h.2.1, h.2.2.1, h.2.2.2⟩

/-- **C4 counterexample.**  For the title `"a"` (MD5 starts `0c`, so the
template index is `12 % 5 = 2`), the casual and professional outputs are the
same string: template 2 contains neither `"Breaking:"` nor `"announces"`, so
the casual replacements change nothing and the claimed pairwise distinctness
of the three tone outputs fails. -/
theorem c4_counterexample :
    MockLLMAdapter.summarize_article "a".data "".data "casual" =
      MockLLMAdapter.summarize_article "a".data "".data "professional" ∧
    mockSummaryIndex "a".data = 2 := by
  refine ⟨by decide, by decide⟩

/-- Witness instantiating `c4_amended_theorem` at the title `"b"`, whose
template index is 1 (MD5 of `"b"` starts `92`, and `0x92 % 5 = 1`), and
discharging the index hypotheses concretely. -/
theorem c4_witness :
    mockSummaryIndex "b".data ≤ 1 ∧
    ((∀ tone : String, MockLLMAdapter.summarize_article "b".data "".data tone =
      MockLLMAdapter.summarize_article "b".data "".data tone) ∧
    MockLLMAdapter.summarize_article "b".data "".data "creative" ≠
      MockLLMAdapter.summarize_article "b".data "".data "professional" ∧
    MockLLMAdapter.summarize_article "b".data "".data "creative" ≠
      MockLLMAdapter.summarize_article "b".data "".data "casual" ∧
    (mockSummaryIndex "b".data ≤ 1 →
      MockLLMAdapter.summarize_article "b".data "".data "casual" ≠
        MockLLMAdapter.summarize_article "b".data "".data "professional") ∧
    (2 ≤ mockSummaryIndex "b".data →
      MockLLMAdapter.summarize_article "b".data "".data "casual" =
        MockLLMAdapter.summarize_article "b".data "".data "professional")) :=
  ⟨by decide, c4_amended_theorem "b".data "".data⟩

/-! ## Content ranking (`worker/utils/content_ranker.py`, `rank_articles`)

An article dictionary is an opaque payload `data : α` plus the optional
`rank_score` key the ranker writes into it.  `calculate_composite_score` is
passed in abstractly as `score : α → Option ℚ` (`none` models a raised
exception inside the `try` block, which the source catches by returning the
input list); note that Python's in-place mutation means the dictionaries
scored before the failure point keep their attached scores.  Python's
`list.sort(key=..., reverse=True)` is a *stable* descending sort, modelled
here by a stable descending insertion sort. -/

/-- An article dictionary: opaque payload plus the optional `rank_score` key. -/
structure PyArticle (α : Type) where
  data : α
  rank_score : Option ℚ
deriving DecidableEq

/-- The sort key `lambda x: x['rank_score']` (all articles have the key by the
time the sort runs; `0` is an arbitrary default for the missing case). -/
def scoreKey {α : Type} (a : PyArticle α) : ℚ := a.rank_score.getD 0

/-- The scoring loop of `rank_articles`: attach `rank_score` to each article
in order; a failure while scoring one article leaves it and its successors
unscored and surfaces the (partially mutated) list through `Except.error`. -/
def attachScores {α : Type} (score : α → Option ℚ) :
    List (PyArticle α) → Except (List (PyArticle α)) (List (PyArticle α))
  | [] => .ok []
  | a :: rest =>
    match score a.data with
    | some q =>
      match attachScores score rest with
      | .ok rs => .ok ({ a with rank_score := some q } :: rs)
      | .error rs => .error ({ a with rank_score := some q } :: rs)
    | none => .error (a :: rest)

/-- Stable descending insertion: `x` goes in front of the first element whose
key is not larger than `x`'s (so in front of equal keys arriving later). -/
def insertDesc {α : Type} (x : PyArticle α) : List (PyArticle α) → List (PyArticle α)
  | [] => [x]
  | y :: ys => if scoreKey y ≤ scoreKey x then x :: y :: ys else y :: insertDesc x ys

/-- Stable descending sort by `rank_score`, modelling
`ranked_articles.sort(key=lambda x: x['rank_score'], reverse=True)`. -/
def sortDesc {α : Type} : List (PyArticle α) → List (PyArticle α)
  | [] => []
  | x :: xs => insertDesc x (sortDesc xs)

/-- `ContentRanker.rank_articles`: score every article and sort descending;
on any internal error return the articles unsorted. -/
def rank_articles {α : Type} (score : α → Option ℚ) (articles : List (PyArticle α)) :
    List (PyArticle α) :=
  match attachScores score articles with
  | .ok ranked => sortDesc ranked
  | .error errList => errList

theorem insertDesc_perm {α : Type} (x : PyArticle α) (l : List (PyArticle α)) :
    (insertDesc x l).Perm (x :: l) := by
  induction l with
  | nil => exact List.Perm.refl _
  | cons y ys ih =>
    unfold insertDesc
    by_cases h : scoreKey y ≤ scoreKey x
    · rw [if_pos h]
    · rw [if_neg h]
      exact (ih.cons y).trans (List.Perm.swap x y ys)

theorem sortDesc_perm {α : Type} (l : List (PyArticle α)) : (sortDesc l).Perm l := by
  induction l with
  | nil => exact List.Perm.refl _
  | cons x xs ih => exact (insertDesc_perm x (sortDesc xs)).trans (ih.cons x)

theorem mem_insertDesc {α : Type} {z x : PyArticle α} {l : List (PyArticle α)} :
    z ∈ insertDesc x l ↔ z = x ∨ z ∈ l := by
  rw [(insertDesc_perm x l).mem_iff, List.mem_cons]

theorem insertDesc_pairwise {α : Type} (x : PyArticle α) (l : List (PyArticle α))
    (h : l.Pairwise (fun a b => scoreKey b ≤ scoreKey a)) :
    (insertDesc x l).Pairwise (fun a b => scoreKey b ≤ scoreKey a) := by
  induction l with
  | nil => simp [insertDesc]
  | cons y ys ih =>
    rcases List.pairwise_cons.mp h with ⟨hy, hys⟩
    unfold insertDesc
    by_cases hc : scoreKey y ≤ scoreKey x
    · rw [if_pos hc]
      refine List.pairwise_cons.mpr ⟨?_, h⟩
      intro z hz
      rcases List.mem_cons.mp hz with rfl | hz
      · exact hc
      · exact le_trans (hy z hz) hc
    · rw [if_neg hc]
      refine List.pairwise_cons.mpr ⟨?_, ih hys⟩
      intro z hz
      rcases mem_insertDesc.mp hz with rfl | hz
      · exact le_of_lt (lt_of_not_le hc)
      · exact hy z hz

theorem sortDesc_pairwise {α : Type} (l : List (PyArticle α)) :
    (sortDesc l).Pairwise (fun a b => scoreKey b ≤ scoreKey a) := by
  induction l with
  | nil => simp [sortDesc]
  | cons x xs ih => exact insertDesc_pairwise x (sortDesc xs) ih

theorem filter_insertDesc {α : Type} (x : PyArticle α) (l : List (PyArticle α)) (q : ℚ) :
    (insertDesc x l).filter (fun a => decide (scoreKey a = q)) =
      if scoreKey x = q then x :: l.filter (fun a => decide (scoreKey a = q))
      else l.filter (fun a => decide (scoreKey a = q)) := by
  induction l with
  | nil =>
    by_cases hq : scoreKey x = q <;> simp [insertDesc, List.filter_cons, hq]
  | cons y ys ih =>
    unfold insertDesc
    by_cases hc : scoreKey y ≤ scoreKey x
    · rw [if_pos hc]
      by_cases hq : scoreKey x = q <;> simp [List.filter_cons, hq]
    · rw [if_neg hc]
      by_cases hyq : scoreKey y = q
      · have hxq : scoreKey x ≠ q := by
          intro hx
          exact hc (by rw [hx, hyq])
        simp [List.filter_cons, hyq, hxq, ih]
      · by_cases hxq : scoreKey x = q <;> simp [List.filter_cons, hyq, hxq, ih]

theorem filter_sortDesc {α : Type} (l : List (PyArticle α)) (q : ℚ) :
    (sortDesc l).filter (fun a => decide (scoreKey a = q)) =
      l.filter (fun a => decide (scoreKey a = q)) := by
  induction l with
  | nil => rfl
  | cons x xs ih =>
    rw [sortDesc, filter_insertDesc]
    by_cases hq : scoreKey x = q <;> simp [List.filter_cons, hq, ih]

theorem attachScores_ok {α : Type} (score : α → Option ℚ) :
    ∀ (l ranked : List (PyArticle α)), attachScores score l = .ok ranked →
      ranked.map (·.data) = l.map (·.data) ∧ ∀ a ∈ ranked, a.rank_score.isSome := by
  intro l
  induction l with
  | nil =>
    intro ranked h
    cases h
    exact ⟨rfl, by simp⟩
  | cons a rest ih =>
    intro ranked h
    rw [attachScores] at h
    cases hs : score a.data with
    | none => rw [hs] at h; cases h
    | some q =>
      rw [hs] at h
      cases hr : attachScores score rest with
      | error rs => rw [hr] at h; cases h
      | ok rs =>
        rw [hr] at h
        cases h
        obtain ⟨hmap, hsome⟩ := ih rs hr
        refine ⟨by simp [hmap], ?_⟩
        intro b hb
        rcases List.mem_cons.mp hb with rfl | hb
        · rfl
        · exact hsome b hb

theorem attachScores_error {α : Type} (score : α → Option ℚ) :
    ∀ (l errList : List (PyArticle α)), attachScores score l = .error errList →
      errList.map (·.data) = l.map (·.data) := by
  intro l
  induction l with
  | nil => intro errList h; cases h
  | cons a rest ih =>
    intro errList h
    rw [attachScores] at h
    cases hs : score a.data with
    | none => rw [hs] at h; cases h; rfl
    | some q =>
      rw [hs] at h
      cases hr : attachScores score rest with
      | ok rs => rw [hr] at h; cases h
      | error rs =>
        rw [hr] at h
        cases h
        simp [ih rs hr]

/-- **C5** (confirmed).  `rank_articles`: when scoring succeeds for every
article, the result is a permutation of the input articles with their
`rank_score` attached (same payloads, in some order), every returned article
carries a `rank_score`, the result is sorted in descending score order, and
equal-score articles keep their arrival order (the filter at any given score
value is unchanged by the sort — the classic stability statement); when any
internal error occurs, the input comes back in its original order instead of
an exception propagating. -/
theorem c5_theorem {α : Type} (score : α → Option ℚ) (articles : List (PyArticle α)) :
    (∀ ranked, attachScores score articles = .ok ranked →
      (rank_articles score articles).Perm ranked ∧
      ranked.map (·.data) = articles.map (·.data) ∧
      (∀ a ∈ rank_articles score articles, a.rank_score.isSome) ∧
      (rank_articles score articles).Pairwise (fun a b => scoreKey b ≤ scoreKey a) ∧
      (∀ q : ℚ, (rank_articles score articles).filter (fun a => decide (scoreKey a = q)) =
        ranked.filter (fun a => decide (scoreKey a = q)))) ∧
    (∀ errList, attachScores score articles = .error errList →
      rank_articles score articles = errList ∧
      errList.map (·.data) = articles.map (·.data)) := by
  constructor
  · intro ranked h
    have hra : rank_articles score articles = sortDesc ranked := by
      rw [rank_articles, h]
    obtain ⟨hmap, hsome⟩ := attachScores_ok score articles ranked h
    refine ⟨?_, hmap, ?_, ?_, ?_⟩
    · rw [hra]; exact sortDesc_perm ranked
    · intro a ha
      rw [hra] at ha
      exact hsome a ((sortDesc_perm ranked).mem_iff.mp ha)
    · rw [hra]; exact sortDesc_pairwise ranked
    · intro q; rw [hra]; exact filter_sortDesc ranked q
  · intro errList h
    exact ⟨by rw [rank_articles, h], attachScores_error score articles errList h⟩

/-- A concrete scoring function for the C5 witness (scores by string length,
with a tie between the two 1-character articles). -/
def c5WitScore : String → Option ℚ := fun s => some (s.length : ℚ)

/-- Concrete articles for the C5 witness. -/
def c5WitArticles : List (PyArticle String) :=
  [⟨"a", none⟩, ⟨"bb", none⟩, ⟨"c", none⟩]

/-- Witness instantiating `c5_theorem` at a concrete input whose scoring
succeeds, with the `attachScores` hypothesis discharged by evaluation. -/
theorem c5_witness :
    (attachScores c5WitScore c5WitArticles =
      .ok [⟨"a", some 1⟩, ⟨"bb", some 2⟩, ⟨"c", some 1⟩]) ∧
    ((rank_articles c5WitScore c5WitArticles).Perm
        [⟨"a", some 1⟩, ⟨"bb", some 2⟩, ⟨"c", some 1⟩] ∧
      [(⟨"a", some 1⟩ : PyArticle String), ⟨"bb", some 2⟩, ⟨"c", some 1⟩].map (·.data) =
        c5WitArticles.map (·.data) ∧
      (∀ a ∈ rank_articles c5WitScore c5WitArticles, a.rank_score.isSome) ∧
      (rank_articles c5WitScore c5WitArticles).Pairwise
        (fun a b => scoreKey b ≤ scoreKey a) ∧
      (∀ q : ℚ,
        (rank_articles c5WitScore c5WitArticles).filter (fun a => decide (scoreKey a = q)) =
          [(⟨"a", some 1⟩ : PyArticle String), ⟨"bb", some 2⟩, ⟨"c", some 1⟩].filter
            (fun a => decide (scoreKey a = q)))) :=
  ⟨by decide, (c5_theorem c5WitScore c5WitArticles).1
    [⟨"a", some 1⟩, ⟨"bb", some 2⟩, ⟨"c", some 1⟩] (by decide)⟩

/-! ## System status endpoint (`backend/app/api/status.py`, `get_system_status`) -/

/-- The only `Job` column the health computation reads. -/
structure JobRow where
  status : String
deriving DecidableEq

/-- `total_jobs = db.query(Job).count()`. -/
def totalJobs (jobs : List JobRow) : Nat := jobs.length

/-- `active_jobs`: jobs whose status is in `["pending", "running"]`. -/
def activeJobs (jobs : List JobRow) : Nat :=
  (jobs.filter (fun j => j.status == "pending" || j.status == "running")).length

/-- `failed_jobs_count`: jobs whose status is `"failed"`. -/
def failedJobs (jobs : List JobRow) : Nat :=
  (jobs.filter (fun j => j.status == "failed")).length

/-- The sequential health computation of `get_system_status` (the float
literal `0.1` is modelled as the exact rational `1/10`):

    system_health = "healthy"
    if active_jobs > 10: system_health = "busy"
    if failed_jobs_count > total_jobs * 0.1: system_health = "degraded"
-/
def system_health (jobs : List JobRow) : String :=
  let h := "healthy"
  let h := if 10 < activeJobs jobs then "busy" else h
  if (totalJobs jobs : ℚ) * (1 / 10) < (failedJobs jobs : ℚ) then "degraded" else h

/-- **C6** (confirmed).  `system_health` is `"healthy"` when neither condition
holds, `"busy"` when only the active-jobs condition holds, and `"degraded"`
whenever the failed-jobs condition holds — in particular in every state where
both conditions hold, since the degraded overwrite runs after the busy
overwrite. -/
theorem c6_theorem (jobs : List JobRow) :
    (¬ 10 < activeJobs jobs →
      ¬ (totalJobs jobs : ℚ) * (1 / 10) < (failedJobs jobs : ℚ) →
      system_health jobs = "healthy") ∧
    (10 < activeJobs jobs →
      ¬ (totalJobs jobs : ℚ) * (1 / 10) < (failedJobs jobs : ℚ) →
      system_health jobs = "busy") ∧
    ((totalJobs jobs : ℚ) * (1 / 10) < (failedJobs jobs : ℚ) →
      system_health jobs = "degraded") := by
  refine ⟨fun h1 h2 => ?_, fun h1 h2 => ?_, fun h => ?_⟩
  · simp only [system_health]
    rw [if_neg h2, if_neg h1]
  · simp only [system_health]
    rw [if_neg h2, if_pos h1]
  · simp only [system_health]
    rw [if_pos h]

/-- A job table with 11 active jobs and 2 failed jobs out of 13: both the
busy and the degraded conditions hold. -/
def c6WitJobs : List JobRow :=
  List.replicate 11 ⟨"running"⟩ ++ List.replicate 2 ⟨"failed"⟩

theorem c6_witjobs_counts :
    activeJobs c6WitJobs = 11 ∧ totalJobs c6WitJobs = 13 ∧ failedJobs c6WitJobs = 2 :=
  ⟨by decide, by decide, by decide⟩

/-- Witness applying `c6_theorem` where both conditions hold concretely:
degraded wins over busy. -/
theorem c6_witness :
    10 < activeJobs c6WitJobs ∧
    (totalJobs c6WitJobs : ℚ) * (1 / 10) < (failedJobs c6WitJobs : ℚ) ∧
    system_health c6WitJobs = "degraded" := by
  have hq : (totalJobs c6WitJobs : ℚ) * (1 / 10) < (failedJobs c6WitJobs : ℚ) := by
    rw [c6_witjobs_counts.2.1, c6_witjobs_counts.2.2]
    norm_num
  exact ⟨by decide, hq, (c6_theorem c6WitJobs).2.2 hq⟩

/-! ## Security module rate limiter (`backend/security.py`, `RateLimiter`) -/

/-- One operation issued against the distributed cache. -/
inductive RedisOp where
  | get (key : String)
  | setex (key : String) (ttl : Nat) (value : Nat)
  | incr (key : String)
deriving DecidableEq

/-- The behaviour of the backing store during one `is_allowed` call: each
field is the outcome of the corresponding operation, `Except.error` modelling
a raised exception (unreachable store, bad value, ...). -/
structure RedisBehavior where
  getResult : Except Unit (Option Int)
  setexResult : Except Unit Unit
  incrResult : Except Unit Unit

/-- `RateLimiter.is_allowed`: `GET` the key; `SETEX` to 1 if absent; `INCR`
if the current count is under the maximum, else deny; any exception anywhere
in the `try` block is caught and the request is permitted.  Returns the
decision together with the trace of cache operations issued. -/
def security_is_allowed (redis : RedisBehavior) (max_requests : Nat)
    (window_seconds : Nat) (key : String) : Bool × List RedisOp :=
  match redis.getResult with
  | .error _ => (true, [.get key])
  | .ok none =>
    match redis.setexResult with
    | .error _ => (true, [.get key, .setex key window_seconds 1])
    | .ok _ => (true, [.get key, .setex key window_seconds 1])
  | .ok (some current) =>
    if current < (max_requests : Int) then
      match redis.incrResult with
      | .error _ => (true, [.get key, .incr key])
      | .ok _ => (true, [.get key, .incr key])
    else (false, [.get key])

/-- **C7** (confirmed).  The security module's `RateLimiter.is_allowed` is a
fixed-window counter over the cache — `GET`, then `SETEX key window 1` when
the key is absent, then `INCR` when the count is under the maximum, and a
denial with no further operation otherwise — and it fails open: the request
is denied *only* when the `GET` succeeded and returned a count at or over the
maximum; every exception path (including a failing `SETEX` or `INCR`)
permits the request. -/
theorem c7_theorem (redis : RedisBehavior) (maxR window : Nat) (key : String) :
    ((security_is_allowed redis maxR window key).1 = false ↔
      ∃ c : Int, redis.getResult = .ok (some c) ∧ (maxR : Int) ≤ c) ∧
    (redis.getResult = .error () →
      security_is_allowed redis maxR window key = (true, [.get key])) ∧
    (redis.getResult = .ok none →
      security_is_allowed redis maxR window key =
        (true, [.get key, .setex key window 1])) ∧
    (∀ c : Int, redis.getResult = .ok (some c) → c < (maxR : Int) →
      security_is_allowed redis maxR window key = (true, [.get key, .incr key])) ∧
    (∀ c : Int, redis.getResult = .ok (some c) → (maxR : Int) ≤ c →
      security_is_allowed redis maxR window key = (false, [.get key])) := by
  obtain ⟨g, s, i⟩ := redis
  cases g with
  | error e =>
    cases e
    simp [security_is_allowed]
  | ok o =>
    cases o with
    | none =>
      cases s <;> simp [security_is_allowed]
    | some c =>
      by_cases hc : c < (maxR : Int)
      · cases i <;> simp [security_is_allowed, hc, not_le.mpr hc]
      · simp [security_is_allowed, hc, not_lt.mp hc]

/-- Backing-store behaviour for the C7 witness: the key holds 3. -/
def c7WitRedis : RedisBehavior := ⟨.ok (some 3), .ok (), .ok ()⟩

/-- Witness applying `c7_theorem`: with a stored count of 3 under a maximum
of 5, the request is permitted and the trace is `GET` then `INCR`. -/
theorem c7_witness :
    security_is_allowed c7WitRedis 5 3600 "k" = (true, [.get "k", .incr "k"]) :=
  (c7_theorem c7WitRedis 5 3600 "k").2.2.2.1 3 rfl (by decide)

/-! ## A/B testing engine (`worker/utils/ab_testing.py`)

The engine's in-memory experiment table is an association list keyed by
experiment id (Python dict keys are unique).  The draw
`random.uniform(0, total_weight)` of `_weighted_random_selection` is passed
in as the parameter `r`; the selection returns the *index* of the chosen
variant so that the in-place `selected_variant.impressions += 1` can be
modelled as a functional update of the table. -/

/-- `VariantStrategy` (`ab_testing.py`). -/
inductive VariantStrategy where
  | casual_tone | formal_tone | question_hook | statistic_lead | story_opening
deriving DecidableEq

/-- `Variant`: content, strategy, weight and the three counters. -/
structure Variant where
  content : String
  strategy : VariantStrategy
  weight : ℚ
  impressions : Nat
  clicks : Nat
  conversions : Nat
deriving DecidableEq

/-- `Variant(content, strategy)`: default weight 1.0, zeroed counters. -/
def Variant.init (content : String) (strategy : VariantStrategy) : Variant :=
  ⟨content, strategy, 1, 0, 0, 0⟩

/-- The `ABTestingEngine` state: its `self.experiments` table. -/
structure ABEngine where
  experiments : List (String × List Variant)
deriving DecidableEq

/-- `experiment_id in self.experiments` / `self.experiments[experiment_id]`. -/
def ABEngine.lookup (e : ABEngine) (id : String) : Option (List Variant) :=
  (e.experiments.find? (fun p => p.1 == id)).map (·.2)

/-- The accumulating walk of `_weighted_random_selection`: return the index of
the first variant whose cumulative weight reaches `r`. -/
def selectIdxAux (r : ℚ) : List Variant → ℚ → Nat → Option Nat
  | [], _, _ => none
  | v :: vs, cw, i =>
    if r ≤ cw + v.weight then some i else selectIdxAux r vs (cw + v.weight) (i + 1)

/-- `_weighted_random_selection(variants)` with draw `r`, as an index: the
walk's pick, else the `variants[0]` fallback; `none` is the `IndexError` the
fallback raises on an empty variant list. -/
def weighted_random_selection (variants : List Variant) (r : ℚ) : Option Nat :=
  match selectIdxAux r variants 0 0 with
  | some i => some i
  | none => if variants.isEmpty then none else some 0

/-- Increment the impression counter of the variant at index `i`. -/
def bumpImpressions : List Variant → Nat → List Variant
  | [], _ => []
  | v :: vs, 0 => { v with impressions := v.impressions + 1 } :: vs
  | v :: vs, i + 1 => v :: bumpImpressions vs i

/-- The table after `selected_variant.impressions += 1` on experiment `id`,
variant index `i` (dict keys are unique, so mapping over all matching keys
is the single-entry update). -/
def ABEngine.updateVariants (e : ABEngine) (id : String) (i : Nat) : ABEngine :=
  ⟨e.experiments.map (fun p => if p.1 == id then (p.1, bumpImpressions p.2 i) else p)⟩

/-- `ABTestingEngine.run_experiment(content, experiment_id)` with draw `r`:
unknown ids return a fresh casual-tone variant wrapping `content` unselected;
known ids draw a variant, bump its impression counter and return it together
with the updated engine state.  `none` models the `IndexError` escaping when
a known experiment has no variants. -/
def run_experiment (e : ABEngine) (content : String) (experiment_id : String)
    (r : ℚ) : Option (Variant × ABEngine) :=
  match e.lookup experiment_id with
  | none => some (Variant.init content .casual_tone, e)
  | some variants =>
    match weighted_random_selection variants r with
    | none => none
    | some i =>
      match variants.get? i with
      | some v =>
        some ({ v with impressions := v.impressions + 1 },
          e.updateVariants experiment_id i)
      | none => none

theorem selectIdxAux_lt (r : ℚ) : ∀ (vs : List Variant) (cw : ℚ) (i j : Nat),
    selectIdxAux r vs cw i = some j → i ≤ j ∧ j < i + vs.length := by
  intro vs
  induction vs with
  | nil => intro cw i j h; cases h
  | cons v vs ih =>
    intro cw i j h
    rw [selectIdxAux] at h
    by_cases hr : r ≤ cw + v.weight
    · rw [if_pos hr] at h
      cases h
      simp
    · rw [if_neg hr] at h
      obtain ⟨h1, h2⟩ := ih (cw + v.weight) (i + 1) j h
      constructor <;> [omega; (simp only [List.length_cons]; omega)]

theorem weighted_random_selection_lt (variants : List Variant) (r : ℚ)
    (h : variants ≠ []) :
    ∃ i, weighted_random_selection variants r = some i ∧ i < variants.length := by
  rw [weighted_random_selection]
  cases hs : selectIdxAux r variants 0 0 with
  | some i =>
    obtain ⟨_, hlt⟩ := selectIdxAux_lt r variants 0 0 i hs
    exact ⟨i, rfl, by simpa using hlt⟩
  | none =>
    refine ⟨0, ?_, List.length_pos.mpr h⟩
    simp [List.isEmpty_iff, h]

/-- **C8** (corrected).  `run_experiment` on an unknown experiment id returns
a fresh casual-tone variant wrapping the original content, with zero
impressions, clicks and conversions, and leaves the engine state (the
experiment table and every stored counter) unchanged.  On a known experiment
id *with at least one stored variant*, it returns one of that experiment's
stored variants with its impression counter incremented, updating only that
variant in the table.  The claim's unconditional known-id part fails for a
known experiment whose variant list is empty: the `variants[0]` fallback
raises `IndexError` instead of returning a variant (see
`c8_counterexample`). -/
theorem c8_amended_theorem (e : ABEngine) (content id : String) (r : ℚ) :
    (e.lookup id = none →
      run_experiment e content id r = some (Variant.init content .casual_tone, e) ∧
      (Variant.init content .casual_tone).content = content ∧
      (Variant.init content .casual_tone).strategy = .casual_tone ∧
      (Variant.init content .casual_tone).impressions = 0 ∧
      (Variant.init content .casual_tone).clicks = 0 ∧
      (Variant.init content .casual_tone).conversions = 0) ∧
    (∀ variants, e.lookup id = some variants → variants ≠ [] →
      ∃ i, ∃ hi : i < variants.length,
        run_experiment e content id r =
          some ({ variants.get ⟨i, hi⟩ with
              impressions := (variants.get ⟨i, hi⟩).impressions + 1 },
            e.updateVariants id i)) := by
  constructor
  · intro h
    exact ⟨by rw [run_experiment, h], rfl, rfl, rfl, rfl, rfl⟩
  · intro variants hv hne
    obtain ⟨i, hsel, hlt⟩ := weighted_random_selection_lt variants r hne
    refine ⟨i, hlt, ?_⟩
    simp only [run_experiment, hv, hsel, List.get?_eq_get hlt]

/-- An engine holding one experiment, `"e"`, with an *empty* variant list. -/
def c8ExEngine : ABEngine := ⟨[("e", [])]⟩

/-- **C8 counterexample.**  For the known experiment id `"e"` whose variant
list is empty, `run_experiment` does not return a stored variant — the
`variants[0]` fallback of `_weighted_random_selection` raises `IndexError`
(modelled as `none`), so the claim's known-id guarantee fails. -/
theorem c8_counterexample :
    c8ExEngine.lookup "e" = some [] ∧ run_experiment c8ExEngine "c" "e" 0 = none :=
  ⟨by decide, by decide⟩

/-- The stored variants of the C8 witness experiment. -/
def c8WitVariants : List Variant :=
  [Variant.init "A" .casual_tone, Variant.init "B" .formal_tone]

/-- An engine holding one experiment, `"x"`, with two stored variants. -/
def c8WitEngine : ABEngine := ⟨[("x", c8WitVariants)]⟩

/-- Witness applying `c8_amended_theorem` to a known experiment with two
variants and the concrete draw `r = 1/2`. -/
theorem c8_witness :
    ∃ i, ∃ hi : i < c8WitVariants.length,
      run_experiment c8WitEngine "c" "x" (1 / 2) =
        some ({ c8WitVariants.get ⟨i, hi⟩ with
            impressions := (c8WitVariants.get ⟨i, hi⟩).impressions + 1 },
          c8WitEngine.updateVariants "x" i) :=
  (c8_amended_theorem c8WitEngine "c" "x" (1 / 2)).2 c8WitVariants (by decide)
    (by decide)

/-! ## Engagement potential (`worker/utils/content_ranker.py`,
`_calculate_engagement_potential`); floats as exact rationals
(`0.2 = 1/5`, `0.05 = 1/20`). -/

/-- The question words of `_calculate_engagement_potential`. -/
def question_words : List (List Char) :=
  ["how".data, "what".data, "why".data, "when".data, "where".data, "which".data,
   "who".data, "can".data, "could".data, "would".data, "should".data]

/-- The action words of `_calculate_engagement_potential`. -/
def action_words : List (List Char) :=
  ["breakthrough".data, "revolutionary".data, "shocking".data, "amazing".data,
   "incredible".data, "unbelievable".data]

/-- The additive score of `_calculate_engagement_potential` before the final
`min(1.0, score)` clamp: `+0.2` for a question-word substring, `+0.2` for an
action-word substring, `+0.2` for any digit, plus
`min(0.2, exclamation_count * 0.05)`. -/
def engagementRaw (title description : List Char) : ℚ :=
  let text := pyLower (title ++ " ".data ++ description)
  let has_question := question_words.any (fun w => isSubstrOf w text)
  let has_action := action_words.any (fun w => isSubstrOf w text)
  let has_number := text.any Char.isDigit
  let exclamation_count : ℚ := (text.count '!' : ℚ)
  (if has_question then (1 / 5 : ℚ) else 0) + (if has_action then 1 / 5 else 0) +
    (if has_number then 1 / 5 else 0) + min (1 / 5) (exclamation_count * (1 / 20))

/-- `_calculate_engagement_potential`: the additive score clamped by
`min(1.0, score)`. -/
def calculate_engagement_potential (title description : List Char) : ℚ :=
  min 1 (engagementRaw title description)

/-- **C9** (confirmed).  For every title and description the engagement score
is at most `0.8`: the four additive terms are each at most `0.2`, so the
`min(1.0, ·)` clamp never binds — `calculate_engagement_potential` equals the
unclamped sum and stays at or below `4/5`. -/
theorem c9_theorem (title description : List Char) :
    engagementRaw title description ≤ 4 / 5 ∧
    calculate_engagement_potential title description = engagementRaw title description ∧
    calculate_engagement_potential title description ≤ 4 / 5 := by
  have hgen : ∀ (a b c : Bool) (q : ℚ),
      (if a then (1 / 5 : ℚ) else 0) + (if b then (1 / 5 : ℚ) else 0) +
        (if c then (1 / 5 : ℚ) else 0) + min (1 / 5) q ≤ 4 / 5 := by
    intro a b c q
    have ha : (if a then (1 / 5 : ℚ) else 0) ≤ 1 / 5 := by split <;> norm_num
    have hb : (if b then (1 / 5 : ℚ) else 0) ≤ 1 / 5 := by split <;> norm_num
    have hc : (if c then (1 / 5 : ℚ) else 0) ≤ 1 / 5 := by split <;> norm_num
    have hq := min_le_left (1 / 5 : ℚ) q
    linarith
  have h1 : engagementRaw title description ≤ 4 / 5 := hgen _ _ _ _
  have h2 : calculate_engagement_potential title description =
      engagementRaw title description :=
    min_eq_right (h1.trans (by norm_num))
  exact ⟨h1, h2, h2 ▸ h1⟩

/-! ## Advanced summarizer fact pipeline
(`worker/utils/advanced_summarizer.py`) -/

/-- A `PyFact`: statement, source, heuristic confidence. -/
structure PyFact where
  statement : List Char
  source : List Char
  confidence : ℚ
deriving DecidableEq

/-- The superlative/absolute words `_verify_facts` checks for. -/
def superlative_words : List (List Char) :=
  ["best".data, "worst".data, "greatest".data, "most".data, "all".data, "every".data]

/-- The per-fact confidence adjustment inside `_verify_facts`'s `try` block
(floats as exact rationals: `0.1 = 1/10`, `0.2 = 1/5`):
`+0.1` (capped at 1) when the statement contains a digit, then `-0.2`
(floored at 0) when it contains a superlative. -/
def adjustFact (f : PyFact) : PyFact :=
  let has_numbers := f.statement.any Char.isDigit
  let has_superlatives :=
    superlative_words.any (fun w => isSubstrOf w (pyLower f.statement))
  let c := f.confidence
  let c := if has_numbers then min 1 (c + 1 / 10) else c
  let c := if has_superlatives then max 0 (c - 1 / 5) else c
  { f with confidence := c }

/-- `_verify_facts` on the non-exception path: adjust each fact's confidence
and keep exactly the facts whose adjusted confidence is at least `0.6`. -/
def verify_facts (facts : List PyFact) : List PyFact :=
  facts.filterMap (fun f =>
    let f' := adjustFact f
    if 3 / 5 ≤ f'.confidence then some f' else none)

/-- Python `line.startswith(("Facts:", "-"))`. -/
def startsWithAny (prefixes : List (List Char)) (line : List Char) : Bool :=
  prefixes.any (fun p => p.isPrefixOf line)

/-- `re.sub(r'^\d+\.\s*', '', line)`: remove a leading run of digits followed
by a literal dot and optional whitespace, if present. -/
def stripNumbering (line : List Char) : List Char :=
  let ds := line.takeWhile Char.isDigit
  if ds.isEmpty then line
  else
    match line.drop ds.length with
    | '.' :: rest => rest.dropWhile Char.isWhitespace
    | _ => line

/-- `_extract_facts`: split the LLM output into lines, strip each, drop empty
lines and lines starting with `"Facts:"` or `"-"`, strip numbering, and wrap
every surviving line as a `PyFact` with confidence `0.8`. -/
def extract_facts (facts_text : List Char) : List PyFact :=
  let fact_lines := (pyStrip facts_text).splitOn '\n'
  fact_lines.filterMap (fun rawLine =>
    let line := pyStrip rawLine
    if line ≠ [] ∧ ¬ startsWithAny ["Facts:".data, "-".data] line = true then
      let line2 := stripNumbering line
      if line2 ≠ [] then some ⟨line2, [], 4 / 5⟩ else none
    else none)

theorem adjustFact_of_initial (f : PyFact) (h : f.confidence = 4 / 5) :
    3 / 5 ≤ (adjustFact f).confidence ∧ (adjustFact f).statement = f.statement := by
  refine ⟨?_, rfl⟩
  rw [adjustFact]
  simp only [h]
  split_ifs <;> norm_num [min_def, max_def]

theorem verify_facts_keeps (facts : List PyFact)
    (h : ∀ f ∈ facts, f.confidence = 4 / 5) :
    (verify_facts facts).map PyFact.statement = facts.map PyFact.statement := by
  induction facts with
  | nil => rfl
  | cons f fs ih =>
    have hf := adjustFact_of_initial f (h f (List.mem_cons_self f fs))
    have hrest := ih (fun g hg => h g (List.mem_cons_of_mem f hg))
    rw [verify_facts] at hrest ⊢
    simp only [List.filterMap_cons, if_pos hf.1]
    simp [hf.2, hrest]

theorem verify_facts_conf (facts : List PyFact) :
    ∀ f ∈ verify_facts facts, 3 / 5 ≤ f.confidence := by
  intro f hf
  rw [verify_facts] at hf
  obtain ⟨a, _, hga⟩ := List.mem_filterMap.mp hf
  by_cases hc : (3 : ℚ) / 5 ≤ (adjustFact a).confidence
  · simp only [if_pos hc] at hga
    cases hga
    exact hc
  · simp only [if_neg hc] at hga
    cases hga

theorem extract_facts_conf (s : List Char) :
    ∀ f ∈ extract_facts s, f.confidence = 4 / 5 := by
  intro f hf
  rw [extract_facts] at hf
  obtain ⟨line, _, hg⟩ := List.mem_filterMap.mp hf
  simp only at hg
  split_ifs at hg <;> cases hg <;> rfl

/-- **C10** (confirmed).  On the non-exception verification path, a fact with
the initial extraction confidence `0.8` is never discarded: the worst-case
adjustment (superlative present, no digit) yields `0.8 - 0.2 = 0.6`, which
meets the `≥ 0.6` retention threshold.  So for every fact list with all
confidences `0.8`, `_verify_facts` returns all the facts (same statements, in
order, each with adjusted confidence still at least `0.6`); and every fact
produced by `_extract_facts` indeed carries confidence `0.8`. -/
theorem c10_theorem (facts : List PyFact) (h : ∀ f ∈ facts, f.confidence = 4 / 5) :
    (verify_facts facts).map PyFact.statement = facts.map PyFact.statement ∧
    (∀ f ∈ verify_facts facts, 3 / 5 ≤ f.confidence) ∧
    (∀ s : List Char, ∀ f ∈ extract_facts s, f.confidence = 4 / 5) :=
  ⟨verify_facts_keeps facts h, verify_facts_conf facts, fun s => extract_facts_conf s⟩

/-- Concrete facts for the C10 witness: one with a superlative and no digit
(the worst case, adjusted to exactly 0.6), one with a digit. -/
def c10WitFacts : List PyFact :=
  [⟨"the best outcome".data, [], 4 / 5⟩, ⟨"grew by 12 percent".data, [], 4 / 5⟩]

/-- Witness applying `c10_theorem` at a concrete fact list, discharging the
all-confidences-0.8 hypothesis by evaluation. -/
theorem c10_witness :
    (∀ f ∈ c10WitFacts, f.confidence = 4 / 5) ∧
    ((verify_facts c10WitFacts).map PyFact.statement = c10WitFacts.map PyFact.statement ∧
     (∀ f ∈ verify_facts c10WitFacts, 3 / 5 ≤ f.confidence) ∧
     (∀ s : List Char, ∀ f ∈ extract_facts s, f.confidence = 4 / 5)) :=
  ⟨by simp [c10WitFacts], c10_theorem c10WitFacts (by simp [c10WitFacts])⟩
